import Mathlib

/-!
Verification of the compliance scoring engine of
`templates/skills/engineering-standards/scripts/validate-compliance.py`.

The Python program is shallowly embedded: each relevant Python function is
translated into an executable Lean definition.  Python floats are modelled by
rationals (all the constants involved, such as 0.5, are exact), Python `dict`
iteration order is modelled by insertion-ordered association lists, and Python
exceptions are modelled by `Option` results (`none` = the call raised).
-/

/-- Python `s.endswith(t)` on strings, character by character. -/
def strEndsWith (s t : String) : Bool :=
  decide (s.toList.reverse.take t.toList.length = t.toList.reverse)

/-- Python `t in s` substring containment on strings. -/
def strContains (s t : String) : Bool :=
  decide (t.toList <:+: s.toList)

/-- `ValidationResult` dataclass: result of a single validation check. -/
structure ValidationResult where
  category : String
  check_name : String
  passed : Bool
  severity : String
  message : String
  details : Option String := none
deriving DecidableEq

/-- `CategoryResult` dataclass: aggregated results for a validation category.
`score` starts at the float default `0.0`. -/
structure CategoryResult where
  name : String
  weight : Int
  checks_passed : Nat := 0
  checks_failed : Nat := 0
  checks_warned : Nat := 0
  score : Rat := 0
  results : List ValidationResult := []
deriving DecidableEq

/-- The part of `rules-config.json` the scoring engine consults:
`validation_categories`, an insertion-ordered map from category name to an
entry that may or may not carry a `weight` key. -/
structure RulesConfig where
  validation_categories : List (String × Option Int)
deriving DecidableEq

/-- `self.config['validation_categories'].get(category, {}).get('weight', 10)`:
a missing category entry, or an entry without a `weight` key, yields 10. -/
def getWeight (cfg : RulesConfig) (c : String) : Int :=
  match cfg.validation_categories.find? (fun p => p.1 == c) with
  | some (_, some w) => w
  | _ => 10

/-- The `weight` key actually present for category `c`, if any. -/
def weightEntry (cfg : RulesConfig) (c : String) : Option Int :=
  (cfg.validation_categories.find? (fun p => p.1 == c)).bind (fun p => p.2)

/-- `CategoryResult(name=category, weight=weight)` as built lazily by
`_add_result` on the first outcome recorded for a category. -/
def mkCategory (cfg : RulesConfig) (c : String) : CategoryResult :=
  { name := c, weight := getWeight cfg c }

/-- `ComplianceValidator._add_result`, restricted to one category tally:
append the result, then bump exactly one of the three counters. -/
def add_result (cat : CategoryResult) (r : ValidationResult) : CategoryResult :=
  if r.passed then
    { cat with results := cat.results ++ [r], checks_passed := cat.checks_passed + 1 }
  else if r.severity == "critical" then
    { cat with results := cat.results ++ [r], checks_failed := cat.checks_failed + 1 }
  else
    { cat with results := cat.results ++ [r], checks_warned := cat.checks_warned + 1 }

/-- One step of `_add_result` on the whole `self.results` dict (modelled as an
insertion-ordered list of category tallies): create the category lazily on its
first outcome, then route the outcome into it. -/
def addToRun (cfg : RulesConfig) (cats : List CategoryResult) (r : ValidationResult) :
    List CategoryResult :=
  if cats.any (fun c => c.name == r.category) then
    cats.map (fun c => if c.name == r.category then add_result c r else c)
  else
    cats ++ [add_result (mkCategory cfg r.category) r]

/-- `self.results` after all recorded outcomes have gone through
`_add_result`, in insertion order. -/
def buildResults (cfg : RulesConfig) (rs : List ValidationResult) : List CategoryResult :=
  rs.foldl (addToRun cfg) []

/-- `total_checks = result.checks_passed + result.checks_failed + result.checks_warned`. -/
def totalChecks (c : CategoryResult) : Nat :=
  c.checks_passed + c.checks_failed + c.checks_warned

/-- The category-score formula of `validate_all`:
`((passed + warned * 0.5) / total_checks) * 100`. -/
def categoryScore (p f w : Nat) : Rat :=
  ((p : Rat) + (w : Rat) * (1 / 2)) / ((p + f + w : Nat) : Rat) * 100

/-- The score assignment of `validate_all`'s loop: a category with at least
one recorded check gets the formula score, otherwise its `score` field is
left at its current value. -/
def setScore (c : CategoryResult) : CategoryResult :=
  if 0 < totalChecks c then
    { c with score := categoryScore c.checks_passed c.checks_failed c.checks_warned }
  else c

/-- The per-category part of `validate_all`'s scoring loop. -/
def finalizeCats (cats : List CategoryResult) : List CategoryResult :=
  cats.map setScore

/-- `overall_score = total_score / total_weight if total_weight > 0 else 0`,
where `total_score` and `total_weight` accumulate `score * weight` and
`weight` over the categories with at least one recorded check. -/
def overallScore (cats : List CategoryResult) : Rat :=
  if 0 < (((finalizeCats cats).filter (fun c => 0 < totalChecks c)).map
            (fun c => c.weight)).sum then
    (((finalizeCats cats).filter (fun c => 0 < totalChecks c)).map
        (fun c => c.score * (c.weight : Rat))).sum /
      (((((finalizeCats cats).filter (fun c => 0 < totalChecks c)).map
            (fun c => c.weight)).sum : Int) : Rat)
  else 0

/-- The grade-selection loop of `validate_all`: `grade = 'F'`, then the first
band (in configuration iteration order) whose `min_percent` the overall score
meets or exceeds wins. -/
def selectGrade (bands : List (String × Rat)) (s : Rat) : String :=
  match bands with
  | [] => "F"
  | b :: rest => if b.2 ≤ s then b.1 else selectGrade rest s

/-! ### Security scan (`validate_security`) -/

/-- A source file visible to the security scan: the top-level source
directory it lives under, its base file name (the component that
`rglob`'s final pattern piece is matched against), its project-relative
path as printed in `details`, and its content.  `read_text(errors='ignore')`
never raises on decode errors, so the content is a total `String`. -/
structure SecFile where
  dir : String
  name : String
  rel : String
  content : String
deriving DecidableEq

/-- The literal final component of the pattern `rglob('*.\x7bts,tsx,js,jsx\x7d')`:
`pathlib` does not brace-expand, so the braces and commas are matched
verbatim and a file name matches iff it ends with this literal text. -/
def litGlobSuffix : String := ".\x7bts,tsx,js,jsx\x7d"

/-- Whether a file name matches the glob component `*.\x7bts,tsx,js,jsx\x7d`:
`*` matches any run of characters within one name, braces are literal. -/
def secGlobMatch (n : String) : Bool :=
  strEndsWith n litGlobSuffix

/-- `source_dirs = ['app', 'src', 'lib', 'pages', 'components']`. -/
def sourceDirs : List String := ["app", "src", "lib", "pages", "components"]

/-- `dangerous_patterns` of `validate_security`. -/
def dangerousPatterns : List (String × String) :=
  [("sk_live_", "Stripe live key"),
   ("pk_live_", "Stripe live publishable key"),
   ("AKIA", "AWS access key")]

/-- The inner pattern loop of `validate_security`: the `break` after the
first hit means only the first matching pattern is reported for a file. -/
def firstSecretHit (content : String) : Option (String × String) :=
  dangerousPatterns.find? (fun p => strContains content p.1)

/-- The outcomes one scanned file contributes: one failing `critical`
`no_hardcoded_secrets` result if some dangerous pattern occurs in it,
nothing otherwise. -/
def secretOutcomes (f : SecFile) : List ValidationResult :=
  match firstSecretHit f.content with
  | some pn =>
      [{ category := "security",
         check_name := "no_hardcoded_secrets",
         passed := false,
         severity := "critical",
         message := "Potential " ++ pn.2 ++ " hardcoded",
         details := some ("Found in " ++ f.rel) }]
  | none => []

/-- The files whose contents `validate_security` actually reads: for each
source directory in order, the snapshot's files under that directory whose
names match the (non-brace-expanded) glob. -/
def scannedFiles (files : List SecFile) : List SecFile :=
  sourceDirs.flatMap (fun d =>
    (files.filter (fun f => f.dir == d)).filter (fun f => secGlobMatch f.name))

/-- The `env_example_exists` check recorded at the top of `validate_security`. -/
def envCheckResult (envName : String) (envOk : Bool) : ValidationResult :=
  { category := "security",
    check_name := "env_example_exists",
    passed := envOk,
    severity := "warning",
    message := envName ++ " file exists",
    details := some (if envOk then "Found" else "Not found (recommended)") }

/-- `ComplianceValidator.validate_security`, as the ordered list of outcomes
it records: nothing when the category is disabled, otherwise the env-example
check followed by one outcome per scanned file containing a secret pattern. -/
def validate_security (enabled : Bool) (envName : String) (envOk : Bool)
    (files : List SecFile) : List ValidationResult :=
  if !enabled then []
  else envCheckResult envName envOk :: (scannedFiles files).flatMap secretOutcomes

/-! ### Guarded reads and the migrations scan -/

/-- A project file as seen by `_read_file`: whether the path exists, and
`some` content if reading succeeds, `none` if `read_text()` would raise
(permissions or encoding). -/
structure ProjFile where
  present : Bool
  content : Option String
deriving DecidableEq

/-- `ComplianceValidator._read_file`: `None` for a missing file, and the
`try/except` turns a raising read into `None` as well. -/
def read_file (f : ProjFile) : Option String :=
  if f.present then f.content else none

/-- `ComplianceValidator._check_file_contains`:
`content is not None and pattern in content`. -/
def check_file_contains (f : ProjFile) (pat : String) : Bool :=
  match read_file f with
  | some c => strContains c pat
  | none => false

/-- Python `pat in content` where `content` may be `None`: containment on a
string, and a raised `TypeError` (modelled as `none`) when `content` is
`None`. -/
def pyIn (pat : String) (content : Option String) : Option Bool :=
  match content with
  | some c => some (strContains c pat)
  | none => none

/-- The outcome recorded for one required CLAUDE.md section. -/
def mkSectionResult (s : String) (b : Bool) : ValidationResult :=
  { category := "documentation",
    check_name := "claude_section_" ++ (s.toLower.replace " " "_"),
    passed := b,
    severity := "warning",
    message := "CLAUDE.md section: " ++ s,
    details := some (if b then "Present" else "Missing") }

/-- The section loop of `validate_documentation`: each required section is
looked up with `f'## ...' in claude_content`; when `claude_content` is
`None` the first iteration raises (`none`), aborting the run. -/
def sectionResults (content : Option String) : List String → Option (List ValidationResult)
  | [] => some []
  | s :: rest =>
    match pyIn ("## " ++ s) content with
    | none => none
    | some b =>
      match sectionResults content rest with
      | none => none
      | some acc => some (mkSectionResult s b :: acc)

/-- The CLAUDE.md part of `validate_documentation` after the existence
check: when the file exists, its content is read with the guarded
`_read_file` and every required section is checked against it. -/
def claude_sections_scan (claudeFile : ProjFile) (sections : List String) :
    Option (List ValidationResult) :=
  if claudeFile.present then sectionResults (read_file claudeFile) sections
  else some []

/-- A migration file: its name and `some` content if `read_text()` succeeds,
`none` if it raises (e.g. undecodable bytes). -/
structure MigFile where
  name : String
  content : Option String
deriving DecidableEq

/-- The idempotency issues `validate_migrations` detects in one file. -/
def migIssues (c : String) : List String :=
  (if strContains c "CREATE POLICY" && !strContains c "DO $$" then
      ["CREATE POLICY without DO $$ block"] else []) ++
  (if strContains c "CREATE TRIGGER" && !strContains c "DROP TRIGGER IF EXISTS" then
      ["CREATE TRIGGER without DROP IF EXISTS"] else []) ++
  (if strContains c "ADD CONSTRAINT" && !strContains c "DO $$" then
      ["ADD CONSTRAINT without idempotency check"] else [])

/-- The file loop of `validate_migrations`: each `.sql` file is read with a
bare `read_text()`, so a raising read (`content = none`) aborts the whole
loop (modelled as `none`); otherwise offending files accumulate in order. -/
def scanMigrations : List MigFile → Option (List String)
  | [] => some []
  | f :: rest =>
    match f.content with
    | none => none
    | some c =>
      match scanMigrations rest with
      | none => none
      | some acc =>
        some (if (migIssues c).isEmpty then acc
              else (f.name ++ ": " ++ String.intercalate ", " (migIssues c)) :: acc)

/-- The `details` string of the aggregate migrations outcome. -/
def migDetails (bad : List String) : String :=
  "Issues in " ++ toString bad.length ++ " files: " ++
    String.intercalate "; " (bad.take 2) ++ (if bad.length > 2 then "..." else "")

/-- `ComplianceValidator.validate_migrations`: skipped when disabled or when
no migrations directory exists; otherwise scans every `.sql` file and records
one aggregate outcome.  `none` models the run aborting with an uncaught
exception from `read_text()`. -/
def validate_migrations (enabled dirFound : Bool) (files : List MigFile) :
    Option (List ValidationResult) :=
  if !enabled then some []
  else if !dirFound then some []
  else
    match scanMigrations files with
    | none => none
    | some bad =>
      some [{ category := "migrations",
              check_name := "migrations_idempotent",
              passed := bad.isEmpty,
              severity := "critical",
              message := "All migrations are idempotent",
              details := some (if bad.isEmpty then "All idempotent" else migDetails bad) }]

/-! ### Concrete runs used as examples -/

/-- A configuration whose `validation_categories` map is empty: no category
has a weight entry. -/
def cfgNoWeights : RulesConfig := ⟨[]⟩

/-- A passing hooks outcome, as `validate_hooks` records it. -/
def hooksPassed : ValidationResult :=
  ⟨"hooks", "lefthook_config_exists", true, "critical",
   "lefthook.yml configuration file", some "Found: lefthook.yml"⟩

/-- A run of six testing outcomes: three passing, one failing `critical`,
two non-passing `warning` — the `passed=3, warned=2, failed=1` example. -/
def rsC1 : List ValidationResult :=
  [⟨"testing", "vitest_config_exists", true, "critical", "Vitest configuration file", some "Found: vitest.config.ts"⟩,
   ⟨"testing", "vitest_coverage_configured", true, "warning", "Vitest coverage thresholds configured", some "Configured"⟩,
   ⟨"testing", "test_script_test", true, "warning", "Test script: test", some "Present"⟩,
   ⟨"testing", "playwright_config_exists", false, "critical", "Playwright E2E testing configured", some "Recommended for web projects"⟩,
   ⟨"testing", "test_script_test_unit", false, "warning", "Test script: test:unit", some "Missing"⟩,
   ⟨"testing", "test_script_test_coverage", false, "warning", "Test script: test:coverage", some "Missing"⟩]

/-- The category tally the run `rsC1` produces, after scoring. -/
def catC1 : CategoryResult :=
  { name := "testing", weight := 10, checks_passed := 3, checks_failed := 1,
    checks_warned := 2, score := categoryScore 3 1 2, results := rsC1 }

/-- Two already-tallied categories with weights 70 and 30 whose formula
scores are 80 and 50. -/
def catsC2 : List CategoryResult :=
  [⟨"a", 70, 4, 1, 0, 0, []⟩, ⟨"b", 30, 1, 1, 0, 0, []⟩]

/-- One tallied category whose configured weight is 0. -/
def catsC2zero : List CategoryResult := [⟨"a", 0, 1, 0, 0, 0, []⟩]

/-- Config giving `security` weight 25. -/
def cfgSec25 : RulesConfig := ⟨[("security", some 25)]⟩

/-- Config giving `security` weight 99, identical to `cfgSec25` elsewhere. -/
def cfgSec99 : RulesConfig := ⟨[("security", some 99)]⟩

/-- A run that records no outcome in the `security` category. -/
def rsNoSec : List ValidationResult :=
  [⟨"documentation", "claude_md_exists", true, "critical", "CLAUDE.md file exists", some "Found"⟩]

/-- Two scanned source files, each containing a Stripe live key. -/
def exSecretTwo : List SecFile :=
  [⟨"src", "payments.\x7bts,tsx,js,jsx\x7d", "src/payments.\x7bts,tsx,js,jsx\x7d",
    "const key = \"sk_live_123\""⟩,
   ⟨"lib", "billing.\x7bts,tsx,js,jsx\x7d", "lib/billing.\x7bts,tsx,js,jsx\x7d",
    "const key = \"sk_live_456\""⟩]

/-- One scanned source file containing an AWS access key on two lines. -/
def exSecretOne : List SecFile :=
  [⟨"src", "aws.\x7bts,tsx,js,jsx\x7d", "src/aws.\x7bts,tsx,js,jsx\x7d",
    "const a = \"AKIA111\"\nconst b = \"AKIA222\""⟩]

/-- The single outcome the scan of `exSecretOne` records. -/
def outSecretOne : ValidationResult :=
  { category := "security", check_name := "no_hardcoded_secrets", passed := false,
    severity := "critical", message := "Potential AWS access key hardcoded",
    details := some ("Found in src/aws.\x7bts,tsx,js,jsx\x7d") }

/-- Two scanned source files both containing AWS access keys. -/
def exSecretDup : List SecFile :=
  [⟨"app", "deploy.\x7bts,tsx,js,jsx\x7d", "app/deploy.\x7bts,tsx,js,jsx\x7d",
    "const a = \"AKIA333\""⟩,
   ⟨"app", "upload.\x7bts,tsx,js,jsx\x7d", "app/upload.\x7bts,tsx,js,jsx\x7d",
    "const a = \"AKIA444\""⟩]

/-- The first outcome the scan of `exSecretDup` records. -/
def outDupA : ValidationResult :=
  { category := "security", check_name := "no_hardcoded_secrets", passed := false,
    severity := "critical", message := "Potential AWS access key hardcoded",
    details := some ("Found in app/deploy.\x7bts,tsx,js,jsx\x7d") }

/-- The second outcome the scan of `exSecretDup` records. -/
def outDupB : ValidationResult :=
  { category := "security", check_name := "no_hardcoded_secrets", passed := false,
    severity := "critical", message := "Potential AWS access key hardcoded",
    details := some ("Found in app/upload.\x7bts,tsx,js,jsx\x7d") }

/-- A file with an ordinary `.ts` extension that contains a live Stripe key. -/
def tsSecretFile : SecFile :=
  ⟨"src", "stripe.ts", "src/stripe.ts", "const key = \"sk_live_789\""⟩

/-- A migration file whose `read_text()` raises (e.g. undecodable bytes). -/
def badMig : MigFile := ⟨"20240101_init.sql", none⟩

/-- A readable migration file followed by an unreadable one. -/
def migsWithBad : List MigFile :=
  [⟨"20240101_a.sql", some "CREATE POLICY p ON t USING (true);"⟩,
   ⟨"20240102_b.sql", none⟩]

/-- A CLAUDE.md that exists but whose `read_text()` raises. -/
def claudeUnreadable : ProjFile := ⟨true, none⟩

/-- A `required_claude_sections` configuration with two entries. -/
def exSections : List String := ["Project Overview", "Development Commands"]

section TallyLemmas

theorem add_result_name (cat : CategoryResult) (r : ValidationResult) :
    (add_result cat r).name = cat.name := by
  unfold add_result
  split
  · rfl
  · split <;> rfl

theorem add_result_weight (cat : CategoryResult) (r : ValidationResult) :
    (add_result cat r).weight = cat.weight := by
  unfold add_result
  split
  · rfl
  · split <;> rfl

theorem add_result_score (cat : CategoryResult) (r : ValidationResult) :
    (add_result cat r).score = cat.score := by
  unfold add_result
  split
  · rfl
  · split <;> rfl

end TallyLemmas

section BuildLemmas

theorem name_of_step (r : ValidationResult) (c : CategoryResult) :
    (if c.name == r.category then add_result c r else c).name = c.name := by
  split
  · exact add_result_name c r
  · rfl

theorem mem_name_addToRun (cfg : RulesConfig) (acc : List CategoryResult)
    (r : ValidationResult) {x : CategoryResult} (hx : x ∈ addToRun cfg acc r) :
    x.name ∈ acc.map (fun c => c.name) ∨ x.name = r.category := by
  unfold addToRun at hx
  split at hx
  · rcases List.mem_map.1 hx with ⟨c, hc, rfl⟩
    left
    rw [name_of_step]
    exact List.mem_map_of_mem _ hc
  · rcases List.mem_append.1 hx with h | h
    · left
      exact List.mem_map_of_mem _ h
    · right
      rcases List.mem_singleton.1 h with rfl
      rw [add_result_name]
      rfl

theorem mem_name_foldl (cfg : RulesConfig) (rs : List ValidationResult) :
    ∀ (acc : List CategoryResult) (x : CategoryResult),
      x ∈ rs.foldl (addToRun cfg) acc →
        x.name ∈ acc.map (fun c => c.name) ∨ ∃ r ∈ rs, x.name = r.category := by
  induction rs with
  | nil =>
    intro acc x hx
    exact Or.inl (List.mem_map_of_mem _ hx)
  | cons r rest ih =>
    intro acc x hx
    rw [List.foldl_cons] at hx
    rcases ih _ x hx with h | h
    · rcases List.mem_map.1 h with ⟨c, hc, hcx⟩
      rcases mem_name_addToRun cfg acc r hc with h' | h'
      · rw [hcx] at h'
        exact Or.inl h'
      · rw [hcx] at h'
        exact Or.inr ⟨r, List.mem_cons_self r rest, h'⟩
    · rcases h with ⟨r', hr', h'⟩
      exact Or.inr ⟨r', List.mem_cons_of_mem r hr', h'⟩

theorem mem_buildResults_name (cfg : RulesConfig) (rs : List ValidationResult)
    {x : CategoryResult} (hx : x ∈ buildResults cfg rs) :
    ∃ r ∈ rs, x.name = r.category := by
  rcases mem_name_foldl cfg rs [] x hx with h | h
  · simp at h
  · exact h

theorem invariant_addToRun (cfg : RulesConfig) (acc : List CategoryResult)
    (r : ValidationResult)
    (hacc : ∀ x ∈ acc, x.weight = getWeight cfg x.name ∧ x.score = 0) :
    ∀ x ∈ addToRun cfg acc r, x.weight = getWeight cfg x.name ∧ x.score = 0 := by
  intro x hx
  unfold addToRun at hx
  split at hx
  · rcases List.mem_map.1 hx with ⟨c, hc, rfl⟩
    have hw : (if c.name == r.category then add_result c r else c).weight = c.weight := by
      split
      · exact add_result_weight c r
      · rfl
    have hs : (if c.name == r.category then add_result c r else c).score = c.score := by
      split
      · exact add_result_score c r
      · rfl
    rw [hw, hs, name_of_step]
    exact hacc c hc
  · rcases List.mem_append.1 hx with h | h
    · exact hacc x h
    · rcases List.mem_singleton.1 h with rfl
      rw [add_result_weight, add_result_score, add_result_name]
      exact ⟨rfl, rfl⟩

theorem invariant_foldl (cfg : RulesConfig) (rs : List ValidationResult) :
    ∀ (acc : List CategoryResult),
      (∀ x ∈ acc, x.weight = getWeight cfg x.name ∧ x.score = 0) →
      ∀ x ∈ rs.foldl (addToRun cfg) acc, x.weight = getWeight cfg x.name ∧ x.score = 0 := by
  induction rs with
  | nil =>
    intro acc hacc x hx
    exact hacc x hx
  | cons r rest ih =>
    intro acc hacc x hx
    rw [List.foldl_cons] at hx
    exact ih _ (invariant_addToRun cfg acc r hacc) x hx

theorem mem_buildResults_weight_score (cfg : RulesConfig) (rs : List ValidationResult)
    {x : CategoryResult} (hx : x ∈ buildResults cfg rs) :
    x.weight = getWeight cfg x.name ∧ x.score = 0 :=
  invariant_foldl cfg rs [] (by simp) x hx

theorem addToRun_congr (cfg cfg' : RulesConfig) (acc : List CategoryResult)
    (r : ValidationResult) (hW : getWeight cfg r.category = getWeight cfg' r.category) :
    addToRun cfg acc r = addToRun cfg' acc r := by
  unfold addToRun mkCategory
  rw [hW]

theorem foldl_addToRun_congr (cfg cfg' : RulesConfig) (c : String)
    (hW : ∀ x, x ≠ c → getWeight cfg x = getWeight cfg' x)
    (rs : List ValidationResult) (hrs : ∀ r ∈ rs, r.category ≠ c) :
    ∀ acc, rs.foldl (addToRun cfg) acc = rs.foldl (addToRun cfg') acc := by
  induction rs with
  | nil => intro acc; rfl
  | cons r rest ih =>
    intro acc
    rw [List.foldl_cons, List.foldl_cons,
      addToRun_congr cfg cfg' acc r (hW r.category (hrs r (List.mem_cons_self r rest)))]
    exact ih (fun r' hr' => hrs r' (List.mem_cons_of_mem r hr')) _

theorem getWeight_of_entry_none (cfg : RulesConfig) (c : String)
    (h : weightEntry cfg c = none) : getWeight cfg c = 10 := by
  unfold weightEntry at h
  unfold getWeight
  cases hf : cfg.validation_categories.find? (fun p => p.1 == c) with
  | none => rfl
  | some p =>
    rcases p with ⟨a, b⟩
    rw [hf] at h
    have hb : b = none := h
    subst hb
    rfl

end BuildLemmas

section ScoreLemmas

theorem totalChecks_setScore (c : CategoryResult) :
    totalChecks (setScore c) = totalChecks c := by
  unfold setScore
  split <;> rfl

theorem weight_setScore (c : CategoryResult) : (setScore c).weight = c.weight := by
  unfold setScore
  split <;> rfl

theorem counters_setScore (c : CategoryResult) :
    (setScore c).checks_passed = c.checks_passed
    ∧ (setScore c).checks_failed = c.checks_failed
    ∧ (setScore c).checks_warned = c.checks_warned := by
  unfold setScore
  split <;> exact ⟨rfl, rfl, rfl⟩

theorem score_setScore_pos (c : CategoryResult) (h : 0 < totalChecks c) :
    (setScore c).score = categoryScore c.checks_passed c.checks_failed c.checks_warned := by
  unfold setScore
  split
  · rfl
  · omega

theorem score_setScore_zero (c : CategoryResult) (h : totalChecks c = 0) :
    (setScore c).score = c.score := by
  unfold setScore
  split
  · omega
  · rfl

theorem filter_finalize (cats : List CategoryResult) :
    (finalizeCats cats).filter (fun c => 0 < totalChecks c)
      = (cats.filter (fun c => 0 < totalChecks c)).map setScore := by
  unfold finalizeCats
  rw [List.filter_map]
  congr 1
  apply List.filter_congr
  intro x _
  simp [Function.comp, totalChecks_setScore]

theorem weights_finalize (cats : List CategoryResult) :
    ((cats.filter (fun c => 0 < totalChecks c)).map setScore).map (fun c => c.weight)
      = (cats.filter (fun c => 0 < totalChecks c)).map (fun c => c.weight) := by
  rw [List.map_map]
  apply List.map_congr_left
  intro x _
  simp [Function.comp, weight_setScore]

theorem scores_finalize (cats : List CategoryResult) :
    ((cats.filter (fun c => 0 < totalChecks c)).map setScore).map
        (fun c => c.score * (c.weight : Rat))
      = (cats.filter (fun c => 0 < totalChecks c)).map
          (fun c => categoryScore c.checks_passed c.checks_failed c.checks_warned
            * (c.weight : Rat)) := by
  rw [List.map_map]
  apply List.map_congr_left
  intro x hx
  have hxt : 0 < totalChecks x := of_decide_eq_true (List.mem_filter.1 hx).2
  simp [Function.comp, score_setScore_pos x hxt, weight_setScore]

theorem overallScore_formula (cats : List CategoryResult) :
    overallScore cats =
      if 0 < ((cats.filter (fun c => 0 < totalChecks c)).map (fun c => c.weight)).sum then
        ((cats.filter (fun c => 0 < totalChecks c)).map
            (fun c => categoryScore c.checks_passed c.checks_failed c.checks_warned
              * (c.weight : Rat))).sum /
          ((((cats.filter (fun c => 0 < totalChecks c)).map (fun c => c.weight)).sum : Int) : Rat)
      else 0 := by
  unfold overallScore
  rw [filter_finalize, weights_finalize, scores_finalize]

end ScoreLemmas

section SecurityLemmas

theorem secretOutcomes_mem {r : ValidationResult} {f : SecFile}
    (h : r ∈ secretOutcomes f) :
    r.check_name = "no_hardcoded_secrets" ∧ r.severity = "critical" ∧ r.passed = false
      ∧ (firstSecretHit f.content).isSome = true
      ∧ r.details = some ("Found in " ++ f.rel) := by
  unfold secretOutcomes at h
  cases hh : firstSecretHit f.content with
  | none =>
    rw [hh] at h
    simp at h
  | some pn =>
    rw [hh] at h
    rcases List.mem_singleton.1 h with rfl
    exact ⟨rfl, rfl, rfl, rfl, rfl⟩

theorem flatMap_secret_length (l : List SecFile) :
    (l.flatMap secretOutcomes).length
      = (l.filter (fun f => (firstSecretHit f.content).isSome)).length := by
  induction l with
  | nil => rfl
  | cons f t ih =>
    cases hh : firstSecretHit f.content with
    | none => simp [secretOutcomes, hh, List.filter_cons, ih]
    | some pn => simp [secretOutcomes, hh, List.filter_cons, ih]

theorem flatMap_secret_filter (l : List SecFile) :
    (l.flatMap secretOutcomes).filter (fun r => r.check_name == "no_hardcoded_secrets")
      = l.flatMap secretOutcomes := by
  induction l with
  | nil => rfl
  | cons f t ih =>
    cases hh : firstSecretHit f.content with
    | none => simp [secretOutcomes, hh, ih]
    | some pn => simp [secretOutcomes, hh, List.filter_cons, ih]

theorem flatMap_secret_filter_ne (l : List SecFile) (n : String)
    (hn : n ≠ "no_hardcoded_secrets") :
    (l.flatMap secretOutcomes).filter (fun r => r.check_name == n) = [] := by
  induction l with
  | nil => rfl
  | cons f t ih =>
    have hb : ("no_hardcoded_secrets" == n) = false :=
      beq_eq_false_iff_ne.2 (Ne.symm hn)
    cases hh : firstSecretHit f.content with
    | none => simp [secretOutcomes, hh, ih]
    | some pn => simp [secretOutcomes, hh, List.filter_cons, hb, ih]

theorem mem_scannedFiles {f : SecFile} {files : List SecFile}
    (h : f ∈ scannedFiles files) : f ∈ files ∧ secGlobMatch f.name = true := by
  unfold scannedFiles at h
  rcases List.mem_flatMap.1 h with ⟨d, _, hf⟩
  rcases List.mem_filter.1 hf with ⟨hf1, hg⟩
  rcases List.mem_filter.1 hf1 with ⟨hmem, _⟩
  exact ⟨hmem, hg⟩

theorem mem_validate_security {r : ValidationResult} {envName : String} {envOk : Bool}
    {files : List SecFile} (h : r ∈ validate_security true envName envOk files) :
    r = envCheckResult envName envOk
      ∨ ∃ f ∈ scannedFiles files, r ∈ secretOutcomes f := by
  unfold validate_security at h
  simp only [Bool.not_true, Bool.false_eq_true, if_false] at h
  rcases List.mem_cons.1 h with h | h
  · exact Or.inl h
  · exact Or.inr (List.mem_flatMap.1 h)

end SecurityLemmas

section MigrationLemmas

theorem scanMigrations_none (files : List MigFile) (f : MigFile)
    (hf : f ∈ files) (hc : f.content = none) : scanMigrations files = none := by
  induction files with
  | nil => simp at hf
  | cons g t ih =>
    rcases List.mem_cons.1 hf with rfl | hmem
    · simp [scanMigrations, hc]
    · have ht := ih hmem
      unfold scanMigrations
      cases hg : g.content with
      | none => rfl
      | some c => simp [ht]

end MigrationLemmas

section GlobLemmas

theorem glob_take_16 {n : String} (h : secGlobMatch n = true) :
    n.toList.reverse.take 16 = litGlobSuffix.toList.reverse := by
  unfold secGlobMatch strEndsWith at h
  have h' := of_decide_eq_true h
  have hlen : litGlobSuffix.toList.length = 16 := rfl
  rw [hlen] at h'
  exact h'

theorem not_glob_of_ord (n t : String) (hlen : t.toList.length ≤ 16)
    (hne : litGlobSuffix.toList.reverse.take t.toList.length ≠ t.toList.reverse)
    (h : strEndsWith n t = true) : secGlobMatch n = false := by
  cases hg : secGlobMatch n with
  | false => rfl
  | true =>
    exfalso
    have h16 := glob_take_16 hg
    unfold strEndsWith at h
    have ht := of_decide_eq_true h
    have heq : n.toList.reverse.take t.toList.length
        = litGlobSuffix.toList.reverse.take t.toList.length := by
      rw [← h16, List.take_take, Nat.min_eq_left hlen]
    exact hne (heq.symm.trans ht)

end GlobLemmas

/-- C1: every category with at least one recorded outcome is scored as
`((checks_passed + 0.5 * checks_warned) / total) * 100`; a category with
zero recorded outcomes keeps score 0; and a category with passed=3,
warned=2, failed=1 scores 66.67 within 0.01. -/
theorem category_score_formula :
    (∀ (cfg : RulesConfig) (rs : List ValidationResult) (cat : CategoryResult),
        cat ∈ finalizeCats (buildResults cfg rs) →
          (0 < totalChecks cat →
            cat.score = categoryScore cat.checks_passed cat.checks_failed cat.checks_warned)
          ∧ (totalChecks cat = 0 → cat.score = 0))
    ∧ |categoryScore 3 1 2 - 6667 / 100| ≤ 1 / 100 := by
  constructor
  · intro cfg rs cat hcat
    unfold finalizeCats at hcat
    rcases List.mem_map.1 hcat with ⟨c0, hc0, rfl⟩
    have hsc : c0.score = 0 := (mem_buildResults_weight_score cfg rs hc0).2
    constructor
    · intro hpos
      rw [totalChecks_setScore] at hpos
      rcases counters_setScore c0 with ⟨hp, hf, hw⟩
      rw [hp, hf, hw, score_setScore_pos c0 hpos]
    · intro hz
      rw [totalChecks_setScore] at hz
      rw [score_setScore_zero c0 hz, hsc]
  · norm_num [categoryScore, abs_le]

/-- Witness for C1: the six-outcome run `rsC1` builds the tally (3,1,2) and
its finalized score is the formula value. -/
theorem category_score_formula_witness :
    catC1.score = categoryScore catC1.checks_passed catC1.checks_failed catC1.checks_warned := by
  have hb : buildResults cfgNoWeights rsC1
      = [{ name := "testing", weight := 10, checks_passed := 3, checks_failed := 1,
           checks_warned := 2, score := 0, results := rsC1 }] := by decide
  have hmem : catC1 ∈ finalizeCats (buildResults cfgNoWeights rsC1) := by
    rw [hb]
    exact List.mem_singleton.2 (by rfl)
  exact (category_score_formula.1 cfgNoWeights rsC1 catC1 hmem).1 (by decide)

/-- C2: the overall score is the weighted mean — weighted by configured
weight — of the formula scores of the categories with at least one recorded
outcome, is 0 when the included weights sum to 0, and two included
categories with weights 70 and 30 and scores 80 and 50 yield 71. -/
theorem overall_weighted_mean :
    (∀ cats : List CategoryResult,
        (0 < ((cats.filter (fun c => 0 < totalChecks c)).map (fun c => c.weight)).sum →
          overallScore cats =
            ((cats.filter (fun c => 0 < totalChecks c)).map
                (fun c => categoryScore c.checks_passed c.checks_failed c.checks_warned
                  * (c.weight : Rat))).sum /
              ((((cats.filter (fun c => 0 < totalChecks c)).map
                  (fun c => c.weight)).sum : Int) : Rat))
        ∧ (((cats.filter (fun c => 0 < totalChecks c)).map (fun c => c.weight)).sum = 0 →
          overallScore cats = 0))
    ∧ overallScore catsC2 = 71 := by
  refine ⟨fun cats => ⟨fun hpos => ?_, fun hz => ?_⟩, ?_⟩
  · rw [overallScore_formula, if_pos hpos]
  · rw [overallScore_formula]
    simp [hz]
  · norm_num [overallScore, finalizeCats, setScore, totalChecks, categoryScore, catsC2]

/-- Witness for C2: the 70/30 example is a positive-weight instance and a
single zero-weight category is a zero-sum instance. -/
theorem overall_weighted_mean_witness :
    overallScore catsC2 =
      ((catsC2.filter (fun c => 0 < totalChecks c)).map
          (fun c => categoryScore c.checks_passed c.checks_failed c.checks_warned
            * (c.weight : Rat))).sum /
        ((((catsC2.filter (fun c => 0 < totalChecks c)).map
            (fun c => c.weight)).sum : Int) : Rat)
    ∧ overallScore catsC2zero = 0 :=
  ⟨(overall_weighted_mean.1 catsC2).1 (by decide),
   (overall_weighted_mean.1 catsC2zero).2 (by decide)⟩

theorem find?_cons_eq {α : Type} (p : α → Bool) (a : α) (l : List α) :
    List.find? p (a :: l) = if p a then some a else List.find? p l := by
  cases h : p a <;> simp [List.find?, h]

/-- C3: the grade is the first band in configuration iteration order whose
minimum threshold the overall score meets or exceeds, and the fixed label
"F" when no band matches; on bands [(A,95),(B,80),(C,60)], 82 selects "B"
and 40 selects "F". -/
theorem grade_first_band :
    (∀ (bands : List (String × Rat)) (s : Rat),
        selectGrade bands s
          = ((bands.find? (fun b => decide (b.2 ≤ s))).map (fun b => b.1)).getD "F")
    ∧ selectGrade [("A", 95), ("B", 80), ("C", 60)] 82 = "B"
    ∧ selectGrade [("A", 95), ("B", 80), ("C", 60)] 40 = "F" := by
  refine ⟨fun bands s => ?_, ?_, ?_⟩
  · induction bands with
    | nil => rfl
    | cons b rest ih =>
      rw [find?_cons_eq]
      by_cases h : b.2 ≤ s
      · simp [selectGrade, h]
      · simp [selectGrade, h, ih]
  · norm_num [selectGrade]
  · norm_num [selectGrade]

/-- C4: tallying routes every recorded outcome into exactly one counter —
passed, critical-failed, or warned — and a non-passing info outcome is
tallied exactly like a non-passing warning, receiving half credit (a lone
non-passing info scores 50). -/
theorem tally_routing :
    ∀ (cat : CategoryResult) (r : ValidationResult),
      ((add_result cat r).checks_passed = cat.checks_passed + (if r.passed then 1 else 0)
      ∧ (add_result cat r).checks_failed
          = cat.checks_failed + (if !r.passed && r.severity == "critical" then 1 else 0)
      ∧ (add_result cat r).checks_warned
          = cat.checks_warned + (if !r.passed && !(r.severity == "critical") then 1 else 0))
      ∧ (add_result cat { r with passed := false, severity := "info" }).checks_warned
          = cat.checks_warned + 1
      ∧ (add_result cat { r with passed := false, severity := "warning" }).checks_warned
          = cat.checks_warned + 1
      ∧ categoryScore 0 0 1 = 50 := by
  intro cat r
  refine ⟨?_, ?_, ?_, ?_⟩
  · cases hp : r.passed with
    | true => simp [add_result, hp]
    | false =>
      cases hs : r.severity == "critical" with
      | true => simp [add_result, hp, hs]
      | false => simp [add_result, hp, hs]
  · simp [add_result, show (("info" : String) == "critical") = false from rfl]
  · simp [add_result, show (("warning" : String) == "critical") = false from rfl]
  · norm_num [categoryScore]

/-- C5: a category with zero recorded outcomes never enters the run's
results — it is absent from the final report — and contributes neither
score nor weight: two configurations that agree on every other category's
weight produce identical results and identical overall scores. -/
theorem zero_outcome_excluded :
    ∀ (cfg cfg' : RulesConfig) (c : String) (rs : List ValidationResult),
      (∀ x, x ≠ c → getWeight cfg x = getWeight cfg' x) →
      (∀ r ∈ rs, r.category ≠ c) →
      (∀ cat ∈ buildResults cfg rs, cat.name ≠ c)
      ∧ buildResults cfg rs = buildResults cfg' rs
      ∧ overallScore (buildResults cfg rs) = overallScore (buildResults cfg' rs) := by
  intro cfg cfg' c rs hW hrs
  have hb : buildResults cfg rs = buildResults cfg' rs :=
    foldl_addToRun_congr cfg cfg' c hW rs hrs []
  refine ⟨?_, hb, by rw [hb]⟩
  intro cat hcat
  rcases mem_buildResults_name cfg rs hcat with ⟨r, hr, hname⟩
  rw [hname]
  exact hrs r hr

/-- Witness for C5: changing the `security` weight from 25 to 99 leaves a
run with no security outcome untouched. -/
theorem zero_outcome_excluded_witness :
    buildResults cfgSec25 rsNoSec = buildResults cfgSec99 rsNoSec
    ∧ overallScore (buildResults cfgSec25 rsNoSec)
        = overallScore (buildResults cfgSec99 rsNoSec) := by
  have hW : ∀ x, x ≠ "security" → getWeight cfgSec25 x = getWeight cfgSec99 x := by
    intro x hx
    have hbx : ("security" == x) = false := beq_eq_false_iff_ne.2 (Ne.symm hx)
    simp [getWeight, cfgSec25, cfgSec99, find?_cons_eq, hbx]
  exact (zero_outcome_excluded cfgSec25 cfgSec99 "security" rsNoSec hW (by decide)).2

/-- C6 counterexample: with an empty `validation_categories` map (`hooks`
has no weight entry), recording a hooks outcome does not fail the run: the
category silently receives weight 10 and an overall score is produced. -/
theorem missing_weight_no_failure :
    weightEntry cfgNoWeights "hooks" = none
    ∧ (buildResults cfgNoWeights [hooksPassed]).map (fun c => (c.name, c.weight))
        = [("hooks", 10)]
    ∧ overallScore (buildResults cfgNoWeights [hooksPassed]) = 100 := by
  refine ⟨rfl, by decide, ?_⟩
  have hb : buildResults cfgNoWeights [hooksPassed]
      = [{ name := "hooks", weight := 10, checks_passed := 1, checks_failed := 0,
           checks_warned := 0, score := 0, results := [hooksPassed] }] := by decide
  rw [hb]
  norm_num [overallScore, finalizeCats, setScore, totalChecks, categoryScore]

/-- C6 (amended): a rule configuration in which a category that records
outcomes has no weight entry does not fail the run; the category's weight
silently defaults to 10. -/
theorem missing_weight_defaults :
    ∀ (cfg : RulesConfig) (c : String) (rs : List ValidationResult) (cat : CategoryResult),
      weightEntry cfg c = none → cat ∈ buildResults cfg rs → cat.name = c →
      cat.weight = 10 := by
  intro cfg c rs cat hw hmem hname
  have h := (mem_buildResults_weight_score cfg rs hmem).1
  rw [h, hname]
  exact getWeight_of_entry_none cfg c hw

/-- Witness for C6: the hooks tally built under the empty configuration has
weight 10. -/
theorem missing_weight_defaults_witness :
    ({ name := "hooks", weight := 10, checks_passed := 1, checks_failed := 0,
       checks_warned := 0, score := 0, results := [hooksPassed] } : CategoryResult).weight
      = 10 :=
  missing_weight_defaults cfgNoWeights "hooks" [hooksPassed]
    { name := "hooks", weight := 10, checks_passed := 1, checks_failed := 0,
      checks_warned := 0, score := 0, results := [hooksPassed] }
    rfl (by decide) rfl

/-- C7 counterexample: two scanned files each containing a live Stripe key
yield two failing critical `no_hardcoded_secrets` outcomes in one scan, not
at most one per scan. -/
theorem secret_scan_counterexample :
    ((validate_security true ".env.local.example" true exSecretTwo).filter
        (fun r => r.check_name == "no_hardcoded_secrets")).length = 2 := by
  decide

/-- C7 (amended): the secret scan records exactly one failing critical
outcome per scanned file containing a dangerous pattern — independent of how
many patterns or lines match inside that file — naming that file's path in
`details`; in particular a secret found in exactly one scanned file yields
exactly one critical outcome. -/
theorem secret_scan_per_file :
    ∀ (envName : String) (envOk : Bool) (files : List SecFile),
      ((validate_security true envName envOk files).filter
          (fun r => r.check_name == "no_hardcoded_secrets")).length
        = ((scannedFiles files).filter
            (fun f => (firstSecretHit f.content).isSome)).length
      ∧ ∀ r ∈ validate_security true envName envOk files,
          r.check_name = "no_hardcoded_secrets" →
            r.severity = "critical" ∧ r.passed = false
            ∧ ∃ f ∈ scannedFiles files, r.details = some ("Found in " ++ f.rel) := by
  intro envName envOk files
  constructor
  · show ((envCheckResult envName envOk
        :: (scannedFiles files).flatMap secretOutcomes).filter
          (fun r => r.check_name == "no_hardcoded_secrets")).length = _
    rw [List.filter_cons]
    have he : (((envCheckResult envName envOk).check_name
        == "no_hardcoded_secrets")) = false := rfl
    rw [he]
    simp only [Bool.false_eq_true, if_false]
    rw [flatMap_secret_filter, flatMap_secret_length]
  · intro r hr hname
    rcases mem_validate_security hr with rfl | ⟨f, hf, hrf⟩
    · have hE : (envCheckResult envName envOk).check_name = "env_example_exists" := rfl
      exact absurd (hE.symm.trans hname) (by decide)
    · rcases secretOutcomes_mem hrf with ⟨_, hsev, hpass, _, hdet⟩
      exact ⟨hsev, hpass, f, hf, hdet⟩

/-- Witness for C7: one scanned file with an AWS key on two lines yields one
critical outcome, whose severity and passed flag are as stated. -/
theorem secret_scan_per_file_witness :
    ((validate_security true ".env.local.example" true exSecretOne).filter
        (fun r => r.check_name == "no_hardcoded_secrets")).length
      = ((scannedFiles exSecretOne).filter
          (fun f => (firstSecretHit f.content).isSome)).length
    ∧ outSecretOne.severity = "critical" ∧ outSecretOne.passed = false :=
  ⟨(secret_scan_per_file ".env.local.example" true exSecretOne).1,
   ((secret_scan_per_file ".env.local.example" true exSecretOne).2 outSecretOne
      (by decide) rfl).1,
   ((secret_scan_per_file ".env.local.example" true exSecretOne).2 outSecretOne
      (by decide) rfl).2.1⟩

/-- C8 counterexample: in a scan of two files both containing AWS keys, the
run's recorded check names are not pairwise distinct — `no_hardcoded_secrets`
appears twice within the security category. -/
theorem check_name_dup_counterexample :
    ¬ ((validate_security true ".env.local.example" true exSecretDup).map
        (fun r => r.check_name)).Nodup := by
  decide

/-- C8 (amended): within the security evaluator's outcomes, every check name
other than `no_hardcoded_secrets` appears at most once per run (that check
may repeat, once per matching file), and any two outcomes sharing a check
name carry the same severity. -/
theorem check_name_severity_fixed :
    ∀ (envName : String) (envOk : Bool) (files : List SecFile) (n : String),
      (n ≠ "no_hardcoded_secrets" →
        ((validate_security true envName envOk files).filter
            (fun r => r.check_name == n)).length ≤ 1)
      ∧ ∀ r ∈ validate_security true envName envOk files,
          ∀ r' ∈ validate_security true envName envOk files,
            r.check_name = r'.check_name → r.severity = r'.severity := by
  intro envName envOk files n
  constructor
  · intro hn
    show ((envCheckResult envName envOk
        :: (scannedFiles files).flatMap secretOutcomes).filter
          (fun r => r.check_name == n)).length ≤ 1
    rw [List.filter_cons, flatMap_secret_filter_ne _ n hn]
    cases h : (((envCheckResult envName envOk).check_name == n)) with
    | false => simp [h]
    | true => simp [h]
  · intro r hr r' hr' hname
    rcases mem_validate_security hr with rfl | ⟨f, hf, hrf⟩
    · rcases mem_validate_security hr' with rfl | ⟨f', hf', hrf'⟩
      · rfl
      · rcases secretOutcomes_mem hrf' with ⟨hcn', _, _, _, _⟩
        have hE : (envCheckResult envName envOk).check_name = "env_example_exists" := rfl
        exact absurd (hE.symm.trans (hname.trans hcn')) (by decide)
    · rcases secretOutcomes_mem hrf with ⟨hcn, hsev, _, _, _⟩
      rcases mem_validate_security hr' with rfl | ⟨f', hf', hrf'⟩
      · have hE : (envCheckResult envName envOk).check_name = "env_example_exists" := rfl
        exact absurd ((hcn.symm.trans hname).trans hE) (by decide)
      · rcases secretOutcomes_mem hrf' with ⟨_, hsev', _, _, _⟩
        rw [hsev, hsev']

/-- Witness for C8: the env-example check name appears at most once, and the
two duplicate secret outcomes of `exSecretDup` carry the same severity. -/
theorem check_name_severity_fixed_witness :
    ((validate_security true ".env.local.example" true exSecretDup).filter
        (fun r => r.check_name == "env_example_exists")).length ≤ 1
    ∧ outDupA.severity = outDupB.severity :=
  ⟨(check_name_severity_fixed ".env.local.example" true exSecretDup
      "env_example_exists").1 (by decide),
   (check_name_severity_fixed ".env.local.example" true exSecretDup
      "env_example_exists").2 outDupA (by decide) outDupB (by decide) rfl⟩

/-- C9 counterexample: a snapshot whose migrations directory contains a file
that fails to decode makes `validate_migrations` raise — the run aborts
instead of skipping the file and producing a report. -/
theorem unreadable_migration_counterexample :
    validate_migrations true true [badMig] = none := rfl

/-- C9 (amended): an unreadable or undecodable file is not, in general,
skipped.  Checks routed through `_check_file_contains` do treat such a file
as not containing the pattern and continue; but the documentation
evaluator's section checks abort the run on an existing CLAUDE.md whose
read fails (the containment is evaluated on `None`), and the migrations
evaluator reads each `.sql` file unguarded, so one unreadable or
undecodable migration file aborts the whole run. -/
theorem unreadable_file_handling :
    (∀ (f : ProjFile) (pat : String), read_file f = none → check_file_contains f pat = false)
    ∧ (∀ (claudeFile : ProjFile) (sections : List String),
        claudeFile.present = true → claudeFile.content = none → sections ≠ [] →
        claude_sections_scan claudeFile sections = none)
    ∧ (∀ (files : List MigFile) (f : MigFile), f ∈ files → f.content = none →
        validate_migrations true true files = none) := by
  refine ⟨?_, ?_, ?_⟩
  · intro f pat h
    unfold check_file_contains
    rw [h]
  · intro claudeFile sections hp hc hne
    unfold claude_sections_scan
    rw [hp]
    have hr : read_file claudeFile = none := by
      unfold read_file
      rw [hp, hc]
      rfl
    rw [hr]
    cases sections with
    | nil => exact absurd rfl hne
    | cons s rest => rfl
  · intro files f hf hc
    have hs := scanMigrations_none files f hf hc
    unfold validate_migrations
    rw [hs]
    rfl

/-- Witness for C9: a present-but-unreadable file is treated as missing by
the containment check, an existing-but-unreadable CLAUDE.md aborts the
section checks, and a readable migration followed by an unreadable one
aborts the migrations run. -/
theorem unreadable_file_handling_witness :
    check_file_contains ⟨true, none⟩ "## Overview" = false
    ∧ claude_sections_scan claudeUnreadable exSections = none
    ∧ validate_migrations true true migsWithBad = none :=
  ⟨unreadable_file_handling.1 ⟨true, none⟩ "## Overview" rfl,
   unreadable_file_handling.2.1 claudeUnreadable exSections rfl rfl (by decide),
   unreadable_file_handling.2.2 migsWithBad ⟨"20240102_b.sql", none⟩ (by decide) rfl⟩

/-- C10: the secret scan's glob is not brace-expanded: every file it reads
has a name ending in the literal text `.` + brace + `ts,tsx,js,jsx` + brace;
no name with an ordinary `.ts`/`.tsx`/`.js`/`.jsx` extension matches; and a
snapshot of ordinary-extension files is never read and yields no
`no_hardcoded_secrets` outcome. -/
theorem glob_not_brace_expanded :
    (∀ (files : List SecFile) (f : SecFile),
        f ∈ scannedFiles files → strEndsWith f.name litGlobSuffix = true)
    ∧ (∀ n : String,
        (strEndsWith n ".ts" || strEndsWith n ".tsx"
          || strEndsWith n ".js" || strEndsWith n ".jsx") = true →
        secGlobMatch n = false)
    ∧ (∀ (envName : String) (envOk : Bool) (files : List SecFile),
        (∀ f ∈ files,
          (strEndsWith f.name ".ts" || strEndsWith f.name ".tsx"
            || strEndsWith f.name ".js" || strEndsWith f.name ".jsx") = true) →
        scannedFiles files = []
        ∧ (validate_security true envName envOk files).filter
            (fun r => r.check_name == "no_hardcoded_secrets") = []) := by
  have hord : ∀ n : String,
      (strEndsWith n ".ts" || strEndsWith n ".tsx"
        || strEndsWith n ".js" || strEndsWith n ".jsx") = true →
      secGlobMatch n = false := by
    intro n h
    simp only [Bool.or_eq_true] at h
    rcases h with ((h | h) | h) | h
    · exact not_glob_of_ord n ".ts" (by decide) (by decide) h
    · exact not_glob_of_ord n ".tsx" (by decide) (by decide) h
    · exact not_glob_of_ord n ".js" (by decide) (by decide) h
    · exact not_glob_of_ord n ".jsx" (by decide) (by decide) h
  refine ⟨?_, hord, ?_⟩
  · intro files f hf
    exact (mem_scannedFiles hf).2
  · intro envName envOk files hall
    have hfil : ∀ d : String,
        ((files.filter (fun f => f.dir == d)).filter (fun f => secGlobMatch f.name)) = [] := by
      intro d
      apply List.filter_eq_nil_iff.2
      intro f hf2
      have hmem := (List.mem_filter.1 hf2).1
      rw [hord f.name (hall f hmem)]
      simp
    have hsc : scannedFiles files = [] := by
      unfold scannedFiles
      apply List.flatMap_eq_nil_iff.2
      intro d _
      exact hfil d
    refine ⟨hsc, ?_⟩
    show ((envCheckResult envName envOk
        :: (scannedFiles files).flatMap secretOutcomes).filter
          (fun r => r.check_name == "no_hardcoded_secrets")) = []
    rw [hsc]
    rfl

/-- Witness for C10: a `.ts` file containing a live Stripe key is never
scanned and produces no outcome. -/
theorem glob_not_brace_expanded_witness :
    scannedFiles [tsSecretFile] = []
    ∧ (validate_security true ".env.local.example" true [tsSecretFile]).filter
        (fun r => r.check_name == "no_hardcoded_secrets") = [] :=
  glob_not_brace_expanded.2.2 ".env.local.example" true [tsSecretFile] (by decide)
